import Mathlib

/-!
# Verification of the Solana instruction-builder HTTP service

A shallow embedding of `src/main.rs` of the repository: a stateless HTTP
service that builds SPL-Token and System-Program instructions, generates
Ed25519 keypairs, signs messages and verifies signatures.

Bytes are modelled as `Nat` (each `< 256`), byte strings as `List Nat`.
Handlers are pure functions from a typed request record (mirroring the Rust
`serde` request structs, every field `Option`) to a pair of an HTTP status
code and a typed reply.  Library functions that the source calls but whose
code is not part of the repository (the `bs58`, `base64`, `solana-sdk`,
`spl-token` and `ed25519-dalek` crates) are modelled from the spec, faithful
to its description of their behaviour; each such definition carries a doc
comment saying so.
-/

set_option linter.unusedVariables false

namespace SolService

/-! ## Generic digit machinery

Kernel-reducible (structurally recursive) digit conversions, bridged to
Mathlib's `Nat.digits` / `Nat.ofDigits` for proofs. -/

/-- Little-endian digit list to number: `digitsToNat b [d0, d1, ...] = d0 + b*d1 + ...`. -/
def digitsToNat (b : Nat) : List Nat → Nat
  | [] => 0
  | d :: ds => d + b * digitsToNat b ds

theorem digitsToNat_eq_ofDigits (b : Nat) (l : List Nat) :
    digitsToNat b l = Nat.ofDigits b l := by
  induction l with
  | nil => rfl
  | cons d ds ih => simp [digitsToNat, Nat.ofDigits_cons, ih]

/-- Fuel-driven little-endian digits of `n` in base `b`; the fuel makes the
recursion structural so that the kernel can evaluate it. -/
def natDigitsAux (b : Nat) : Nat → Nat → List Nat
  | 0, _ => []
  | fuel + 1, n => if n = 0 then [] else n % b :: natDigitsAux b fuel (n / b)

/-- Little-endian digits of `n` in base `b` (for `b ≥ 2` agrees with `Nat.digits`). -/
def natDigits (b n : Nat) : List Nat := natDigitsAux b n n

theorem natDigitsAux_eq_digits (b : Nat) (hb : 1 < b) :
    ∀ (fuel n : Nat), n ≤ fuel → natDigitsAux b fuel n = Nat.digits b n := by
  intro fuel
  induction fuel with
  | zero =>
    intro n hn
    interval_cases n
    simp [natDigitsAux]
  | succ fuel ih =>
    intro n hn
    by_cases h0 : n = 0
    · simp [natDigitsAux, h0]
    · rw [natDigitsAux, if_neg h0, Nat.digits_def' hb (Nat.pos_of_ne_zero h0)]
      congr 1
      exact ih _ (by
        have := Nat.div_lt_self (Nat.pos_of_ne_zero h0) hb
        omega)

theorem natDigits_eq_digits (b n : Nat) (hb : 1 < b) :
    natDigits b n = Nat.digits b n :=
  natDigitsAux_eq_digits b hb n n le_rfl

/-- Number of leading zero entries of a list. -/
def leadZeros : List Nat → Nat
  | [] => 0
  | d :: ds => if d = 0 then leadZeros ds + 1 else 0

theorem leadZeros_replicate_append (k : Nat) (l : List Nat) :
    leadZeros (List.replicate k 0 ++ l) = k + leadZeros l := by
  induction k with
  | zero => simp
  | succ k ih => simp [List.replicate_succ, leadZeros, ih]; omega

theorem leadZeros_cons_ne (x : Nat) (l : List Nat) (hx : x ≠ 0) :
    leadZeros (x :: l) = 0 := by
  simp [leadZeros, hx]

theorem leadZeros_head?_ne (l : List Nat) (h : ∀ x, l.head? = some x → x ≠ 0) :
    leadZeros l = 0 := by
  cases l with
  | nil => rfl
  | cons x xs => exact leadZeros_cons_ne x xs (h x rfl)

/-- Every list splits as leading zeros followed by its remainder. -/
theorem replicate_leadZeros_append_drop (l : List Nat) :
    l = List.replicate (leadZeros l) 0 ++ l.drop (leadZeros l) := by
  induction l with
  | nil => rfl
  | cons x xs ih =>
    by_cases hx : x = 0
    · subst hx
      have hz : leadZeros (0 :: xs) = leadZeros xs + 1 := by simp [leadZeros]
      rw [hz, List.replicate_succ]
      simpa using ih
    · simp [leadZeros_cons_ne x xs hx]

theorem head?_drop_leadZeros (l : List Nat) :
    ∀ x, (l.drop (leadZeros l)).head? = some x → x ≠ 0 := by
  induction l with
  | nil => intro x hx; simp at hx
  | cons y ys ih =>
    intro x hx
    by_cases hy : y = 0
    · subst hy
      simp only [leadZeros, if_pos rfl, List.drop_succ_cons] at hx
      exact ih x hx
    · simp [leadZeros_cons_ne y ys hy] at hx
      omega

theorem digitsToNat_replicate_zero (b k : Nat) :
    digitsToNat b (List.replicate k 0) = 0 := by
  induction k with
  | zero => rfl
  | succ k ih => simp [List.replicate_succ, digitsToNat, ih]

/-- `(Nat.digits b n).length ≤ m` follows from `n < b ^ m`. -/
theorem digits_length_le (b n m : Nat) (hb : 1 < b) (h : n < b ^ m) :
    (Nat.digits b n).length ≤ m := by
  by_cases h0 : n = 0
  · simp [h0]
  · rw [Nat.digits_len b n hb h0]
    have := Nat.log_lt_of_lt_pow h0 h
    omega

/-- `k` bytes of `n`, little-endian (the `u32`/`u64` little-endian layouts). -/
def natLE : Nat → Nat → List Nat
  | 0, _ => []
  | k + 1, n => n % 256 :: natLE k (n / 256)

theorem natLE_length (k n : Nat) : (natLE k n).length = k := by
  induction k generalizing n with
  | zero => rfl
  | succ k ih => simp [natLE, ih]

theorem natLE_lt (k n : Nat) : ∀ x ∈ natLE k n, x < 256 := by
  induction k generalizing n with
  | zero => intro x hx; simp [natLE] at hx
  | succ k ih =>
    intro x hx
    simp only [natLE, List.mem_cons] at hx
    rcases hx with h | h
    · omega
    · exact ih _ x h

/-- Fuel-driven modular exponentiation (square and multiply), structurally
recursive so that the kernel can evaluate it. -/
def powModAux : Nat → Nat → Nat → Nat → Nat
  | 0, _, _, m => 1 % m
  | fuel + 1, b, e, m =>
    if e = 0 then 1 % m
    else
      let r := powModAux fuel (b * b % m) (e / 2) m
      if e % 2 = 1 then r * (b % m) % m else r

/-- `b ^ e % m`; 300 squarings cover every exponent `< 2 ^ 300` used here. -/
def powMod (b e m : Nat) : Nat := powModAux 300 b e m

/-! ## Alphabet lookup -/

/-- Index of `c` in the list `l` (`none` when absent). -/
def indexIn : List Char → Char → Option Nat
  | [], _ => none
  | a :: as, c => if c = a then some 0 else (indexIn as c).map (· + 1)

theorem indexIn_getD (l : List Char) (c : Char) (d : Nat)
    (h : indexIn l c = some d) : d < l.length ∧ l.getD d ' ' = c := by
  induction l generalizing d with
  | nil => simp [indexIn] at h
  | cons a as ih =>
    by_cases hc : c = a
    · simp [indexIn, hc] at h
      subst hc
      simp [← h]
    · simp only [indexIn, if_neg hc, Option.map_eq_some'] at h
      obtain ⟨d', hd', rfl⟩ := h
      obtain ⟨h1, h2⟩ := ih d' hd'
      constructor
      · simpa using h1
      · simpa using h2

theorem indexIn_of_getD (l : List Char) :
    ∀ d : Nat, l.Nodup → d < l.length → indexIn l (l.getD d ' ') = some d := by
  induction l with
  | nil => intro d _ hd; simp at hd
  | cons a as ih =>
    intro d hnd hd
    cases d with
    | zero => simp [indexIn]
    | succ d =>
      have hd' : d < as.length := by simpa using hd
      have hmem : as.getD d ' ' ∈ as := by
        rw [List.getD_eq_getElem as ' ' hd']
        exact List.getElem_mem hd'
      have hne : as.getD d ' ' ≠ a := by
        intro hEq
        rw [hEq] at hmem
        exact (List.nodup_cons.mp hnd).1 hmem
      have hcons : (a :: as).getD (d + 1) ' ' = as.getD d ' ' := by simp
      rw [hcons, indexIn, if_neg hne, ih d (List.nodup_cons.mp hnd).2 hd']
      rfl

/-- Map each character of `l` to its index in the alphabet `alpha`,
failing when a character is not in the alphabet. -/
def charsToDigits (alpha : List Char) : List Char → Option (List Nat)
  | [] => some []
  | c :: cs =>
    match indexIn alpha c, charsToDigits alpha cs with
    | some d, some ds => some (d :: ds)
    | _, _ => none

theorem charsToDigits_spec (alpha : List Char) (l : List Char) (ds : List Nat)
    (h : charsToDigits alpha l = some ds) :
    l = ds.map (fun d => alpha.getD d ' ') ∧ ∀ d ∈ ds, d < alpha.length := by
  induction l generalizing ds with
  | nil =>
    simp [charsToDigits] at h
    subst h
    simp
  | cons c cs ih =>
    rw [charsToDigits] at h
    rcases h1 : indexIn alpha c with _ | d <;> rw [h1] at h
    · simp at h
    · rcases h2 : charsToDigits alpha cs with _ | ds' <;> rw [h2] at h
      · simp at h
      · simp only [Option.some.injEq] at h
        subst h
        obtain ⟨hl, hb⟩ := ih ds' h2
        obtain ⟨hd1, hd2⟩ := indexIn_getD alpha c d h1
        constructor
        · rw [List.map_cons, ← hd2, ← hl]
        · intro x hx
          rcases List.mem_cons.mp hx with rfl | hx
          · exact hd1
          · exact hb x hx

theorem charsToDigits_of_map (alpha : List Char) (hnd : alpha.Nodup)
    (ds : List Nat) (hds : ∀ d ∈ ds, d < alpha.length) :
    charsToDigits alpha (ds.map (fun d => alpha.getD d ' ')) = some ds := by
  induction ds with
  | nil => rfl
  | cons d ds ih =>
    have h1 : indexIn alpha (alpha.getD d ' ') = some d :=
      indexIn_of_getD alpha d hnd (hds d (List.mem_cons_self d ds))
    have h2 := ih (fun x hx => hds x (List.mem_cons_of_mem d hx))
    simp only [List.map_cons, charsToDigits, h1, h2]

/-! ## Rebase: the common core of the base-58 and byte codecs -/

theorem getLast?_reverse_eq_head? (l : List Nat) : l.reverse.getLast? = l.head? := by
  cases l with
  | nil => rfl
  | cons x t => simp

theorem head?_reverse_eq_getLast? (l : List Nat) : l.reverse.head? = l.getLast? := by
  have h := getLast?_reverse_eq_head? l.reverse
  rw [List.reverse_reverse] at h
  exact h.symm

theorem getLast_ne_zero_of_getLast? (l : List Nat)
    (hx : ∀ x, l.getLast? = some x → x ≠ 0) :
    ∀ h : l ≠ [], l.getLast h ≠ 0 := by
  intro h
  exact hx _ (List.getLast?_eq_getLast_of_ne_nil h)

/-- A value of `Nat.digits` has a nonzero most significant digit. -/
theorem digits_getLast?_ne_zero (b n x : Nat)
    (h : (Nat.digits b n).getLast? = some x) : x ≠ 0 := by
  have hne : Nat.digits b n ≠ [] := by
    intro hnil
    rw [hnil] at h
    simp at h
  have h0 : n ≠ 0 := Nat.digits_ne_nil_iff_ne_zero.mp hne
  have hlast := Nat.getLast_digit_ne_zero b h0
  rw [List.getLast?_eq_getLast_of_ne_nil hne] at h
  simp only [Option.some.injEq] at h
  rw [← h]
  exact hlast

/-- Digit-list base change: strip leading zeros, reinterpret the remainder
(big-endian, base `b1`) as a number, re-expand it big-endian in base `b2`,
and restore the leading zeros. -/
def rebase (b1 b2 : Nat) (l : List Nat) : List Nat :=
  List.replicate (leadZeros l) 0 ++ (natDigits b2 (digitsToNat b1 l.reverse)).reverse

theorem rebase_bounds (b1 b2 : Nat) (hb2 : 1 < b2) (l : List Nat) :
    ∀ x ∈ rebase b1 b2 l, x < b2 := by
  intro x hx
  rcases List.mem_append.mp hx with h | h
  · have := List.eq_of_mem_replicate h
    omega
  · rw [natDigits_eq_digits _ _ hb2] at h
    exact Nat.digits_lt_base hb2 (List.mem_reverse.mp h)

theorem digitsToNat_reverse_append_replicate (b : Nat) (k : Nat) (t : List Nat) :
    digitsToNat b (List.replicate k 0 ++ t).reverse = digitsToNat b t.reverse := by
  rw [digitsToNat_eq_ofDigits, digitsToNat_eq_ofDigits, List.reverse_append,
    List.reverse_replicate, Nat.ofDigits_append]
  have hz : Nat.ofDigits b (List.replicate k 0) = 0 := by
    rw [← digitsToNat_eq_ofDigits]
    exact digitsToNat_replicate_zero b k
  simp [hz]

theorem leadZeros_reverse_digits (b n : Nat) :
    leadZeros (Nat.digits b n).reverse = 0 := by
  apply leadZeros_head?_ne
  intro x hx
  rw [head?_reverse_eq_getLast?] at hx
  exact digits_getLast?_ne_zero b n x hx

/-- The two directions of the codec round-trips in one statement. -/
theorem rebase_rebase (b1 b2 : Nat) (hb1 : 1 < b1) (hb2 : 1 < b2)
    (l : List Nat) (hl : ∀ x ∈ l, x < b1) :
    rebase b2 b1 (rebase b1 b2 l) = l := by
  set k := leadZeros l with hk
  set t := l.drop k with ht
  have hsplit : l = List.replicate k 0 ++ t := replicate_leadZeros_append_drop l
  have hthead : ∀ x, t.head? = some x → x ≠ 0 := head?_drop_leadZeros l
  have htb : ∀ x ∈ t.reverse, x < b1 := by
    intro x hx
    exact hl x (List.mem_of_mem_drop (List.mem_reverse.mp hx))
  set n := digitsToNat b1 l.reverse with hn
  have hnt : n = Nat.ofDigits b1 t.reverse := by
    rw [hn, hsplit, digitsToNat_reverse_append_replicate, digitsToNat_eq_ofDigits]
  have hdig : Nat.digits b1 n = t.reverse := by
    rw [hnt]
    apply Nat.digits_ofDigits b1 hb1 _ htb
    apply getLast_ne_zero_of_getLast?
    intro x hx
    rw [getLast?_reverse_eq_head?] at hx
    exact hthead x hx
  have inner : rebase b1 b2 l = List.replicate k 0 ++ (Nat.digits b2 n).reverse := by
    rw [rebase, natDigits_eq_digits _ _ hb2, ← hk, ← hn]
  have hlz : leadZeros (rebase b1 b2 l) = k := by
    rw [inner, leadZeros_replicate_append, leadZeros_reverse_digits]
    omega
  have hnum : digitsToNat b2 (rebase b1 b2 l).reverse = n := by
    rw [inner, digitsToNat_reverse_append_replicate, List.reverse_reverse,
      digitsToNat_eq_ofDigits, Nat.ofDigits_digits]
  rw [rebase, hlz, hnum, natDigits_eq_digits _ _ hb1, hdig, List.reverse_reverse]
  exact hsplit.symm

/-! ## Base58 codec

Modelled from the spec: the `bs58` crate's encode/decode (`b58_encode` /
`b58_decode` of §4.1), whose code is not part of the repository.  A byte
string maps to leading `'1'`s for its leading zero bytes followed by the
big-endian base-58 numeral of the remainder, over the Bitcoin alphabet. -/

def b58Alphabet : List Char :=
  "123456789ABCDEFGHJKLMNPQRSTUVWXYZabcdefghijkmnopqrstuvwxyz".toList

def b58_encode (b : List Nat) : String :=
  String.mk (List.replicate (leadZeros b) '1' ++
    ((natDigits 58 (digitsToNat 256 b.reverse)).reverse.map
      (fun d => b58Alphabet.getD d ' ')))

def b58_decode (s : String) : Option (List Nat) :=
  match charsToDigits b58Alphabet s.toList with
  | none => none
  | some ds =>
      some (List.replicate (leadZeros ds) 0 ++
        (natDigits 256 (digitsToNat 58 ds.reverse)).reverse)

theorem b58Alphabet_nodup : b58Alphabet.Nodup := by decide

theorem b58Alphabet_length : b58Alphabet.length = 58 := by decide

theorem b58_encode_eq_map (b : List Nat) :
    b58_encode b =
      String.mk ((rebase 256 58 b).map (fun d => b58Alphabet.getD d ' ')) := by
  rw [b58_encode, rebase, List.map_append, List.map_replicate]
  rfl

theorem b58_decode_eq_rebase (s : String) (ds : List Nat)
    (h : charsToDigits b58Alphabet s.toList = some ds) :
    b58_decode s = some (rebase 58 256 ds) := by
  rw [b58_decode, h, rebase]

theorem string_mk_toList (s : String) : String.mk s.toList = s := by
  cases s
  rfl

/-- Base58 round-trip, decode after encode. -/
theorem b58_decode_encode (b : List Nat) (hb : ∀ x ∈ b, x < 256) :
    b58_decode (b58_encode b) = some b := by
  rw [b58_encode_eq_map]
  have htl : (String.mk ((rebase 256 58 b).map (fun d => b58Alphabet.getD d ' '))).toList
      = (rebase 256 58 b).map (fun d => b58Alphabet.getD d ' ') := rfl
  have hcd : charsToDigits b58Alphabet
      ((rebase 256 58 b).map (fun d => b58Alphabet.getD d ' ')) = some (rebase 256 58 b) := by
    apply charsToDigits_of_map _ b58Alphabet_nodup
    intro d hd
    rw [b58Alphabet_length]
    exact rebase_bounds 256 58 (by norm_num) b d hd
  rw [b58_decode]
  rw [htl, hcd]
  show some (rebase 58 256 (rebase 256 58 b)) = some b
  rw [rebase_rebase 256 58 (by norm_num) (by norm_num) b hb]

/-- Base58 round-trip, encode after decode: decoding is injective on valid
strings and encoding restores the original string. -/
theorem b58_encode_decode (s : String) (b : List Nat) (h : b58_decode s = some b) :
    b58_encode b = s := by
  rw [b58_decode] at h
  rcases hcd : charsToDigits b58Alphabet s.toList with _ | ds <;> rw [hcd] at h
  · simp at h
  · simp only [Option.some.injEq] at h
    have hb : b = rebase 58 256 ds := h.symm
    obtain ⟨hmap, hbound⟩ := charsToDigits_spec _ _ _ hcd
    have hds58 : ∀ x ∈ ds, x < 58 := by
      intro x hx
      have := hbound x hx
      rwa [b58Alphabet_length] at this
    rw [hb, b58_encode_eq_map,
      rebase_rebase 58 256 (by norm_num) (by norm_num) ds hds58, ← hmap,
      string_mk_toList]

theorem b58_decode_bounds (s : String) (b : List Nat) (h : b58_decode s = some b) :
    ∀ x ∈ b, x < 256 := by
  rw [b58_decode] at h
  rcases hcd : charsToDigits b58Alphabet s.toList with _ | ds <;> rw [hcd] at h
  · simp at h
  · simp only [Option.some.injEq] at h
    rw [← h]
    exact rebase_bounds 58 256 (by norm_num) ds

/-- The canonical split of a digit list: the digits of its numeric value are
the reverse of what remains after the leading zeros. -/
theorem digits_digitsToNat_reverse (b1 : Nat) (hb1 : 1 < b1)
    (l : List Nat) (hl : ∀ x ∈ l, x < b1) :
    Nat.digits b1 (digitsToNat b1 l.reverse) = (l.drop (leadZeros l)).reverse := by
  set k := leadZeros l with hk
  set t := l.drop k with ht
  have hsplit : l = List.replicate k 0 ++ t := replicate_leadZeros_append_drop l
  have hthead : ∀ x, t.head? = some x → x ≠ 0 := head?_drop_leadZeros l
  have htb : ∀ x ∈ t.reverse, x < b1 := by
    intro x hx
    exact hl x (List.mem_of_mem_drop (List.mem_reverse.mp hx))
  have hnt : digitsToNat b1 l.reverse = Nat.ofDigits b1 t.reverse := by
    conv_lhs => rw [hsplit]
    rw [digitsToNat_reverse_append_replicate, digitsToNat_eq_ofDigits]
  rw [hnt]
  apply Nat.digits_ofDigits b1 hb1 _ htb
  apply getLast_ne_zero_of_getLast?
  intro x hx
  rw [getLast?_reverse_eq_head?] at hx
  exact hthead x hx

theorem length_eq_leadZeros_add_digits (b1 : Nat) (hb1 : 1 < b1)
    (l : List Nat) (hl : ∀ x ∈ l, x < b1) :
    l.length = leadZeros l + (Nat.digits b1 (digitsToNat b1 l.reverse)).length := by
  rw [digits_digitsToNat_reverse b1 hb1 l hl]
  conv_lhs => rw [replicate_leadZeros_append_drop l]
  simp

theorem pow_bound_58_44 : ∀ k : Fin 33, (256 : Nat) ^ (32 - (k : Nat)) ≤ 58 ^ (44 - (k : Nat)) := by
  decide

/-- A base58 string that decodes to 32 bytes has at most 44 characters. -/
theorem b58_decode_char_length_le (s : String) (b : List Nat)
    (h : b58_decode s = some b) (h32 : b.length = 32) :
    s.toList.length ≤ 44 := by
  rw [b58_decode] at h
  rcases hcd : charsToDigits b58Alphabet s.toList with _ | ds <;> rw [hcd] at h
  · simp at h
  · simp only [Option.some.injEq] at h
    obtain ⟨hmap, hbound⟩ := charsToDigits_spec _ _ _ hcd
    have hds58 : ∀ x ∈ ds, x < 58 := by
      intro x hx
      have := hbound x hx
      rwa [b58Alphabet_length] at this
    set k := leadZeros ds with hk
    set n := digitsToNat 58 ds.reverse with hn
    have hblen : b.length = k + (Nat.digits 256 n).length := by
      rw [← h, natDigits_eq_digits _ _ (by norm_num)]
      simp
    have hslen : s.toList.length = k + (Nat.digits 58 n).length := by
      rw [hmap, List.length_map]
      exact length_eq_leadZeros_add_digits 58 (by norm_num) ds hds58
    have hk32 : k ≤ 32 := by omega
    have hnlt : n < 256 ^ (32 - k) := by
      have : n < 256 ^ (Nat.digits 256 n).length :=
        Nat.lt_base_pow_length_digits (by norm_num)
      have hlen : (Nat.digits 256 n).length = 32 - k := by omega
      rwa [hlen] at this
    have hn58 : n < 58 ^ (44 - k) :=
      lt_of_lt_of_le hnlt (pow_bound_58_44 ⟨k, by omega⟩)
    have := digits_length_le 58 n (44 - k) (by norm_num) hn58
    omega

/-! ## UTF-8 encoding

The raw bytes of a Rust `String` (`message.as_bytes()` in the handlers). -/

/-- UTF-8 encoding of a single scalar value. -/
def utf8Char (c : Char) : List Nat :=
  let n := c.toNat
  if n < 128 then [n]
  else if n < 2048 then [192 + n / 64, 128 + n % 64]
  else if n < 65536 then [224 + n / 4096, 128 + n / 64 % 64, 128 + n % 64]
  else [240 + n / 262144, 128 + n / 4096 % 64, 128 + n / 64 % 64, 128 + n % 64]

/-- UTF-8 bytes of a string. -/
def utf8Bytes (s : String) : List Nat := (s.toList.map utf8Char).flatten

theorem utf8_length_of_ascii (l : List Char) (h : ∀ c ∈ l, c.toNat < 128) :
    ((l.map utf8Char).flatten).length = l.length := by
  induction l with
  | nil => rfl
  | cons c cs ih =>
    have hc : utf8Char c = [c.toNat] := by
      rw [utf8Char]
      simp [h c (List.mem_cons_self c cs)]
    simp only [List.map_cons, List.flatten_cons, List.length_append, hc]
    rw [ih (fun x hx => h x (List.mem_cons_of_mem c hx))]
    simp
    omega

theorem b58Alphabet_ascii : ∀ c ∈ b58Alphabet, c.toNat < 128 := by decide

/-- A base58 string that decodes to 32 bytes occupies at most 44 UTF-8 bytes. -/
theorem b58_decode_utf8_length_le (s : String) (b : List Nat)
    (h : b58_decode s = some b) (h32 : b.length = 32) :
    (utf8Bytes s).length ≤ 44 := by
  have hchars : s.toList.length ≤ 44 := b58_decode_char_length_le s b h h32
  rw [b58_decode] at h
  rcases hcd : charsToDigits b58Alphabet s.toList with _ | ds <;> rw [hcd] at h
  · simp at h
  · obtain ⟨hmap, _⟩ := charsToDigits_spec _ _ _ hcd
    have hascii : ∀ c ∈ s.toList, c.toNat < 128 := by
      intro c hc
      rw [hmap] at hc
      obtain ⟨d, hd, rfl⟩ := List.mem_map.mp hc
      by_cases hlt : d < b58Alphabet.length
      · apply b58Alphabet_ascii
        rw [List.getD_eq_getElem _ _ hlt]
        exact List.getElem_mem hlt
      · rw [List.getD_eq_default _ _ (by omega)]
        decide
    rw [utf8Bytes, utf8_length_of_ascii _ hascii]
    exact hchars

/-! ## Base64 codec

Modelled from the spec: the `base64` crate's `encode`/`decode` with the
standard alphabet, padding required on decode per RFC 4648 (§4.1 of the
spec). -/

def b64Alphabet : List Char :=
  "ABCDEFGHIJKLMNOPQRSTUVWXYZabcdefghijklmnopqrstuvwxyz0123456789+/".toList

theorem b64Alphabet_nodup : b64Alphabet.Nodup := by decide

theorem b64Alphabet_length : b64Alphabet.length = 64 := by decide

/-- One base64 character for a 6-bit value. -/
def b64Char (d : Nat) : Char := b64Alphabet.getD d ' '

/-- Encode bytes in groups of three, emitting four characters per group,
`'='`-padded at the end. -/
def b64EncodeChunks : List Nat → List Char
  | [] => []
  | [a] => [b64Char (a / 4), b64Char (a % 4 * 16), '=', '=']
  | [a, b] => [b64Char (a / 4), b64Char (a % 4 * 16 + b / 16), b64Char (b % 16 * 4), '=']
  | a :: b :: c :: rest =>
      b64Char (a / 4) :: b64Char (a % 4 * 16 + b / 16) ::
        b64Char (b % 16 * 4 + c / 64) :: b64Char (c % 64) :: b64EncodeChunks rest

def base64_encode (b : List Nat) : String := String.mk (b64EncodeChunks b)

/-- Decode groups of four characters; `'='` padding only at the end, and the
unused low bits of the final symbol must be zero (strict RFC 4648). -/
def b64DecodeChunks : List Char → Option (List Nat)
  | [] => some []
  | c0 :: c1 :: c2 :: c3 :: rest =>
    match indexIn b64Alphabet c0, indexIn b64Alphabet c1 with
    | some x0, some x1 =>
      if c2 = '=' then
        if c3 = '=' ∧ rest = [] ∧ x1 % 16 = 0 then
          some [x0 * 4 + x1 / 16]
        else none
      else
        match indexIn b64Alphabet c2 with
        | some x2 =>
          if c3 = '=' then
            if rest = [] ∧ x2 % 4 = 0 then
              some [x0 * 4 + x1 / 16, x1 % 16 * 16 + x2 / 4]
            else none
          else
            match indexIn b64Alphabet c3 with
            | some x3 =>
              match b64DecodeChunks rest with
              | some bs =>
                  some ((x0 * 4 + x1 / 16) :: (x1 % 16 * 16 + x2 / 4) ::
                    (x2 % 4 * 64 + x3) :: bs)
              | none => none
            | none => none
        | none => none
    | _, _ => none
  | _ => none

def base64_decode (s : String) : Option (List Nat) := b64DecodeChunks s.toList

theorem indexIn_b64Char (d : Nat) (hd : d < 64) :
    indexIn b64Alphabet (b64Char d) = some d := by
  apply indexIn_of_getD _ d b64Alphabet_nodup
  rw [b64Alphabet_length]
  exact hd

theorem b64Char_ne_pad (d : Nat) (hd : d < 64) : b64Char d ≠ '=' := by
  have hmem : b64Char d ∈ b64Alphabet := by
    rw [b64Char, List.getD_eq_getElem _ _ (by rw [b64Alphabet_length]; exact hd)]
    exact List.getElem_mem _
  intro hEq
  rw [hEq] at hmem
  exact (by decide : '=' ∉ b64Alphabet) hmem

theorem b64_chunks_decode_encode : ∀ (n : Nat) (bs : List Nat), bs.length ≤ n →
    (∀ x ∈ bs, x < 256) → b64DecodeChunks (b64EncodeChunks bs) = some bs := by
  intro n
  induction n with
  | zero =>
    intro bs hlen _
    have : bs = [] := List.eq_nil_of_length_eq_zero (by omega)
    subst this
    rfl
  | succ n ih =>
    intro bs hlen hbound
    match bs with
    | [] => rfl
    | [a] =>
      have ha : a < 256 := hbound a (by simp)
      have h16 : a % 4 * 16 % 16 = 0 := by omega
      rw [b64EncodeChunks, b64DecodeChunks,
        indexIn_b64Char _ (by omega), indexIn_b64Char _ (by omega)]
      simp [h16]
      omega
    | [a, b] =>
      have ha : a < 256 := hbound a (by simp)
      have hb : b < 256 := hbound b (by simp)
      have hpad : b64Char (b % 16 * 4) ≠ '=' := b64Char_ne_pad _ (by omega)
      have h4 : b % 16 * 4 % 4 = 0 := by omega
      rw [b64EncodeChunks, b64DecodeChunks,
        indexIn_b64Char _ (by omega), indexIn_b64Char _ (by omega)]
      simp [hpad, indexIn_b64Char _ (show b % 16 * 4 < 64 by omega), h4]
      constructor <;> omega
    | a :: b :: c :: rest =>
      have ha : a < 256 := hbound a (by simp)
      have hb : b < 256 := hbound b (by simp)
      have hc : c < 256 := hbound c (by simp)
      have hrest := ih rest (by simp at hlen; omega)
        (fun x hx => hbound x (by simp [hx]))
      have hpad2 : b64Char (b % 16 * 4 + c / 64) ≠ '=' := b64Char_ne_pad _ (by omega)
      have hpad3 : b64Char (c % 64) ≠ '=' := b64Char_ne_pad _ (by omega)
      rw [b64EncodeChunks, b64DecodeChunks,
        indexIn_b64Char _ (by omega), indexIn_b64Char _ (by omega)]
      simp [hpad2, hpad3, indexIn_b64Char _ (show b % 16 * 4 + c / 64 < 64 by omega),
        indexIn_b64Char _ (show c % 64 < 64 by omega), hrest]
      refine ⟨by omega, by omega, by omega⟩

/-- Base64 round-trip, decode after encode. -/
theorem base64_decode_encode (b : List Nat) (hb : ∀ x ∈ b, x < 256) :
    base64_decode (base64_encode b) = some b := by
  rw [base64_encode, base64_decode]
  exact b64_chunks_decode_encode b.length b le_rfl hb

/-! ## SHA-256

Modelled from the spec: the hash underlying Solana's program-derived-address
computation (`solana_program::hash::hashv`, §4.3), not part of the
repository.  Standard FIPS 180-4 SHA-256 over byte lists; 32-bit words are
`Nat`s reduced mod `2 ^ 32`. -/

def w32 : Nat := 4294967296

def rotr32 (x n : Nat) : Nat := x / 2 ^ n + x % 2 ^ n * 2 ^ (32 - n)

def shaBigSigma0 (x : Nat) : Nat := rotr32 x 2 ^^^ rotr32 x 13 ^^^ rotr32 x 22

def shaBigSigma1 (x : Nat) : Nat := rotr32 x 6 ^^^ rotr32 x 11 ^^^ rotr32 x 25

def shaSmallSigma0 (x : Nat) : Nat := rotr32 x 7 ^^^ rotr32 x 18 ^^^ x / 2 ^ 3

def shaSmallSigma1 (x : Nat) : Nat := rotr32 x 17 ^^^ rotr32 x 19 ^^^ x / 2 ^ 10

def sha256K : List Nat := [
  1116352408, 1899447441, 3049323471, 3921009573, 961987163,
  1508970993, 2453635748, 2870763221, 3624381080, 310598401,
  607225278, 1426881987, 1925078388, 2162078206, 2614888103,
  3248222580, 3835390401, 4022224774, 264347078, 604807628,
  770255983, 1249150122, 1555081692, 1996064986, 2554220882,
  2821834349, 2952996808, 3210313671, 3336571891, 3584528711,
  113926993, 338241895, 666307205, 773529912, 1294757372,
  1396182291, 1695183700, 1986661051, 2177026350, 2456956037,
  2730485921, 2820302411, 3259730800, 3345764771, 3516065817,
  3600352804, 4094571909, 275423344, 430227734, 506948616,
  659060556, 883997877, 958139571, 1322822218, 1537002063,
  1747873779, 1955562222, 2024104815, 2227730452, 2361852424,
  2428436474, 2756734187, 3204031479, 3329325298]

def sha256H0 : List Nat := [
  1779033703, 3144134277, 1013904242, 2773480762,
  1359893119, 2600822924, 528734635, 1541459225]

/-- Big-endian bytes of `n`, `k` bytes wide. -/
def natBE (k n : Nat) : List Nat := (natLE k n).reverse

/-- Group bytes into big-endian 32-bit words (length assumed divisible by 4). -/
def bytesToWordsBE : List Nat → List Nat
  | a :: b :: c :: d :: rest => (((a * 256 + b) * 256 + c) * 256 + d) :: bytesToWordsBE rest
  | _ => []

/-- FIPS 180-4 padding: `0x80`, zeros to 56 mod 64, 8-byte big-endian bit length. -/
def sha256Pad (m : List Nat) : List Nat :=
  m ++ [128] ++ List.replicate ((119 - m.length % 64) % 64) 0 ++ natBE 8 (m.length * 8)

/-- Extend the 16 message-schedule words by one. -/
def scheduleStep (w : List Nat) : List Nat :=
  w ++ [(shaSmallSigma1 (w.getD (w.length - 2) 0) + w.getD (w.length - 7) 0 +
    shaSmallSigma0 (w.getD (w.length - 15) 0) + w.getD (w.length - 16) 0) % w32]

def schedule : List Nat → Nat → List Nat
  | w, 0 => w
  | w, k + 1 => schedule (scheduleStep w) k

/-- One round of the SHA-256 compression function on state `[a,b,c,d,e,f,g,h]`. -/
def compressStep (st : List Nat) (wk : Nat × Nat) : List Nat :=
  match st with
  | [a, b, c, d, e, f, g, h] =>
    let ch := (e &&& f) ^^^ ((w32 - 1 - e) &&& g)
    let temp1 := (h + shaBigSigma1 e + ch + wk.2 + wk.1) % w32
    let maj := (a &&& b) ^^^ (a &&& c) ^^^ (b &&& c)
    let temp2 := (shaBigSigma0 a + maj) % w32
    [(temp1 + temp2) % w32, a, b, c, (d + temp1) % w32, e, f, g]
  | _ => st

/-- Process the (padded) message 64-byte block by 64-byte block. -/
def sha256BlocksAux : Nat → List Nat → List Nat → List Nat
  | 0, h, _ => h
  | fuel + 1, h, msg =>
    match msg with
    | [] => h
    | _ =>
      let ws := schedule (bytesToWordsBE (msg.take 64)) 48
      let st := (ws.zip sha256K).foldl compressStep h
      let h2 := (h.zip st).map (fun p => (p.1 + p.2) % w32)
      sha256BlocksAux fuel h2 (msg.drop 64)

/-- SHA-256 digest (32 bytes) of a byte list. -/
def sha256 (m : List Nat) : List Nat :=
  ((sha256BlocksAux (m.length + 1) sha256H0 (sha256Pad m)).map (natBE 4)).flatten

/-! ## Ed25519 point decompression test

Modelled from the spec: `Pubkey::is_on_curve` / curve25519-dalek
`CompressedEdwardsY::decompress` succeeding, used by the PDA bump search
(§4.3); the crates are not part of the repository.  A 32-byte string is on
the curve iff, with `y` its low 255 bits little-endian, `x² = (y²-1)/(d·y²+1)`
has a square root mod `p = 2²⁵⁵ - 19` (computed by the `sqrt_ratio_i`
candidate-root check). -/

def ed25519P : Nat := 2 ^ 255 - 19

/-- The Edwards curve constant `d = -121665/121666 mod p`. -/
def ed25519D : Nat := (ed25519P - 121665) * powMod 121666 (ed25519P - 2) ed25519P % ed25519P

def isOnCurve (bs : List Nat) : Bool :=
  let p := ed25519P
  let y := digitsToNat 256 bs % 2 ^ 255
  let yy := y * y % p
  let u := (yy + p - 1) % p
  let v := (ed25519D * yy + 1) % p
  let v3 := v * v % p * v % p
  let v7 := v3 * v3 % p * v % p
  let r := u * v3 % p * powMod (u * v7 % p) ((p - 5) / 8) p % p
  let check := v * (r * r % p) % p
  check == u || check == (p - u) % p

/-! ## Program-derived addresses and the associated token account

Modelled from the spec (§4.3): `Pubkey::create_program_address`,
`Pubkey::try_find_program_address` and
`spl_associated_token_account::get_associated_token_address`, whose crates
are not part of the repository. -/

inductive PubkeyErr where
  | invalidSeeds
  | maxSeedLength
  deriving DecidableEq, Repr

def pdaMarker : List Nat :=
  "ProgramDerivedAddress".toList.map Char.toNat

def createProgramAddress (seeds : List (List Nat)) (pid : List Nat) :
    Except PubkeyErr (List Nat) :=
  if seeds.length > 16 ∨ seeds.any (fun s => s.length > 32) then
    .error .maxSeedLength
  else
    let h := sha256 (seeds.flatten ++ pid ++ pdaMarker)
    if isOnCurve h then .error .invalidSeeds else .ok h

/-- The bump loop of `try_find_program_address`: bumps 255 down to 1. -/
def findLoop (seeds : List (List Nat)) (pid : List Nat) : Nat → Option (List Nat × Nat)
  | 0 => none
  | b + 1 =>
    match createProgramAddress (seeds ++ [[b + 1]]) pid with
    | .ok a => some (a, b + 1)
    | .error .invalidSeeds => findLoop seeds pid b
    | .error _ => none

def tryFindProgramAddress (seeds : List (List Nat)) (pid : List Nat) :
    Option (List Nat × Nat) :=
  findLoop seeds pid 255

/-- `find_program_address` panics when no bump works; the unreachable case
is modelled by an all-zero address. -/
def findProgramAddress (seeds : List (List Nat)) (pid : List Nat) : List Nat × Nat :=
  (tryFindProgramAddress seeds pid).getD (List.replicate 32 0, 0)

/-! ## Well-known program ids (32-byte values of the base58 constants) -/

/-- `spl_token::id()`, base58 `TokenkegQfeZyiNwAJbNbGKPFXCWuBvf9Ss623VQ5DA`. -/
def tokenProgramId : List Nat :=
  [6, 221, 246, 225, 215, 101, 161, 147, 217, 203, 225, 70, 206, 235, 121, 172,
   28, 180, 133, 237, 95, 91, 55, 145, 58, 140, 245, 133, 126, 255, 0, 169]

/-- The associated-token-account program id, base58
`ATokenGPvbdGVxr1b2hvZbsiqW5xWH25efTNsLJA8knL`. -/
def ataProgramId : List Nat :=
  [140, 151, 37, 143, 78, 36, 137, 241, 187, 61, 16, 41, 20, 142, 13, 131,
   11, 90, 19, 153, 218, 255, 16, 132, 4, 142, 123, 216, 219, 233, 248, 89]

/-- The rent sysvar id, base58 `SysvarRent111111111111111111111111111111111`. -/
def rentSysvarId : List Nat :=
  [6, 167, 213, 23, 25, 44, 92, 81, 33, 140, 201, 76, 61, 74, 241, 127,
   88, 218, 238, 8, 155, 161, 253, 68, 227, 219, 217, 138, 0, 0, 0, 0]

/-- The System program id (32 zero bytes, base58 `11111111111111111111111111111111`). -/
def systemProgramId : List Nat := List.replicate 32 0

theorem tokenProgramId_b58 :
    b58_encode tokenProgramId = "TokenkegQfeZyiNwAJbNbGKPFXCWuBvf9Ss623VQ5DA" := by decide

theorem ataProgramId_b58 :
    b58_encode ataProgramId = "ATokenGPvbdGVxr1b2hvZbsiqW5xWH25efTNsLJA8knL" := by decide

theorem rentSysvarId_b58 :
    b58_encode rentSysvarId = "SysvarRent111111111111111111111111111111111" := by decide

theorem systemProgramId_b58 :
    b58_encode systemProgramId = "11111111111111111111111111111111" := by decide

/-- Modelled from the spec (§4.3):
`spl_associated_token_account::get_associated_token_address`, the PDA of
seeds `[wallet, token-program id, mint]` under the ATA program id. -/
def get_associated_token_address (wallet mint : List Nat) : List Nat :=
  (findProgramAddress [wallet, tokenProgramId, mint] ataProgramId).1

/-! ## Ed25519 primitives (abstract)

Modelled from the spec (§4.2): the `ed25519-dalek` primitives used through
`solana_sdk::signature`, whose code is not part of the repository.  Key
derivation, detached signing and verification are opaque functions packaged
in a structure; the spec-stated laws about them (signing law, key-derivation
lengths) enter the theorems as explicit hypotheses. -/

structure Ed25519 where
  /-- public key derived from a 32-byte seed -/
  derive : List Nat → List Nat
  /-- detached signature over raw message bytes from (seed, message) -/
  signBytes : List Nat → List Nat → List Nat
  /-- verification: (public key, message, signature) -/
  verifyBytes : List Nat → List Nat → List Nat → Bool
  /-- whether 32 bytes decompress to a curve point (`PublicKey::from_bytes`) -/
  pointValid : List Nat → Bool

/-- A trivial instantiation used by the concrete witnesses; the theorems
quantify over every `Ed25519`. -/
def dummyEd : Ed25519 where
  derive := fun _ => List.replicate 32 0
  signBytes := fun _ _ => List.replicate 64 0
  verifyBytes := fun _ _ _ => true
  pointValid := fun _ => true

/-! ## Parsers -/

/-- Modelled from the spec: `solana_sdk::pubkey::Pubkey::from_str` — at most
44 input bytes, base58 decode, decoded length exactly 32 (§4.1
`parse_pubkey`). -/
def pubkeyFromStr (s : String) : Option (List Nat) :=
  if (utf8Bytes s).length > 44 then none
  else
    match b58_decode s with
    | none => none
    | some b => if b.length = 32 then some b else none

/-- Modelled from the spec: `solana_sdk::signature::Keypair::from_bytes` —
64 bytes, the trailing 32 a valid curve point equal to the Ed25519 public
key derived from the leading 32 (§4.1 `parse_secret`).  Returns
(seed, public key). -/
def keypairFromBytes (E : Ed25519) (v : List Nat) : Option (List Nat × List Nat) :=
  if v.length < 64 then none
  else
    let seed := v.take 32
    let pk := v.drop 32
    if pk.length = 32 then
      if E.pointValid pk then
        if pk = E.derive seed then some (seed, pk) else none
      else none
    else none

/-- Modelled from the spec: `Signature::try_from(&[u8])` — exactly 64 bytes
(§3 Signature). -/
def signatureTryFrom (v : List Nat) : Option (List Nat) :=
  if v.length = 64 then some v else none

/-! ## Instruction builders -/

structure AccountMeta where
  pubkey : List Nat
  is_signer : Bool
  is_writable : Bool
  deriving DecidableEq, Repr

structure Instruction where
  program_id : List Nat
  accounts : List AccountMeta
  data : List Nat
  deriving DecidableEq, Repr

/-- Modelled from the spec (§4.4 initialize_mint):
`spl_token::instruction::initialize_mint`.  Fails when the given token
program id is not the SPL-Token id; data is tag `0x00`, decimals,
mint-authority bytes, and the `COption` freeze-authority tag. -/
def initialize_mint (tokenProg mint mintAuthority : List Nat)
    (freezeAuthority : Option (List Nat)) (decimals : Nat) :
    Except String Instruction :=
  if tokenProg ≠ tokenProgramId then .error "IncorrectProgramId"
  else
    .ok
      { program_id := tokenProg
        accounts := [⟨mint, false, true⟩, ⟨rentSysvarId, false, false⟩]
        data := 0 :: decimals :: mintAuthority ++
          (match freezeAuthority with
           | none => [0]
           | some fa => 1 :: fa) }

/-- Modelled from the spec (§4.4 system_transfer):
`system_instruction::transfer` — System program, `[{from, signer,
writable}, {to, writable}]`, data `u32` tag 2 LE then lamports `u64` LE. -/
def system_transfer (fromPubkey toPubkey : List Nat) (lamports : Nat) : Instruction :=
  { program_id := systemProgramId
    accounts := [⟨fromPubkey, true, true⟩, ⟨toPubkey, false, true⟩]
    data := natLE 4 2 ++ natLE 8 lamports }

/-- Modelled from the spec (§4.4 spl_transfer):
`spl_token::instruction::transfer` — tag `0x03` then amount `u64` LE;
the owner is a signer iff no multisig signers are given. -/
def spl_transfer (tokenProg source dest owner : List Nat)
    (signerPubkeys : List (List Nat)) (amount : Nat) :
    Except String Instruction :=
  if tokenProg ≠ tokenProgramId then .error "IncorrectProgramId"
  else
    .ok
      { program_id := tokenProg
        accounts := [⟨source, false, true⟩, ⟨dest, false, true⟩,
          ⟨owner, signerPubkeys.isEmpty, false⟩] ++
          signerPubkeys.map (fun s => ⟨s, true, false⟩)
        data := 3 :: natLE 8 amount }

/-- Modelled from the spec (§4.4 mint_to):
`spl_token::instruction::mint_to` — tag `0x07` then amount `u64` LE. -/
def mint_to (tokenProg mint account owner : List Nat)
    (signerPubkeys : List (List Nat)) (amount : Nat) :
    Except String Instruction :=
  if tokenProg ≠ tokenProgramId then .error "IncorrectProgramId"
  else
    .ok
      { program_id := tokenProg
        accounts := [⟨mint, false, true⟩, ⟨account, false, true⟩,
          ⟨owner, signerPubkeys.isEmpty, false⟩] ++
          signerPubkeys.map (fun s => ⟨s, true, false⟩)
        data := 7 :: natLE 8 amount }

/-! ## Request and reply records (the `serde` structs of `main.rs`) -/

/-- The reply envelope: `{success:true, data}` or `{success:false, error}`. -/
inductive Response (α : Type) where
  | success (data : α)
  | failure (error : String)
  deriving DecidableEq, Repr

/-- `/token/create` request (Rust struct `MintToken`). -/
structure MintToken where
  mintAuthority : Option String
  mint : Option String
  decimals : Option Nat
  deriving DecidableEq, Repr

/-- `/message/sign` request. -/
structure SignData where
  message : Option String
  secret : Option String
  deriving DecidableEq, Repr

/-- `/message/verify` request. -/
structure VerifyData where
  signature : Option String
  message : Option String
  pubkey : Option String
  deriving DecidableEq, Repr

/-- `/send/sol` request; Rust fields `from`/`to` are `fromAddr`/`toAddr`
here (`from` and `to` are Lean keywords). -/
structure SendSol where
  fromAddr : Option String
  toAddr : Option String
  lamports : Option Nat
  deriving DecidableEq, Repr

/-- `/send/token` request. -/
structure SendToken where
  destination : Option String
  mint : Option String
  owner : Option String
  amount : Option Nat
  deriving DecidableEq, Repr

/-- `/token/mint` request. -/
structure MintTokenRequest where
  mint : Option String
  destination : Option String
  authority : Option String
  amount : Option Nat
  deriving DecidableEq, Repr

structure AccountMetaInfo where
  pubkey : String
  is_signer : Bool
  is_writable : Bool
  deriving DecidableEq, Repr

/-- `/send/token` account shape: only `pubkey` and `isSigner`. -/
structure SendTokenResponse where
  pubkey : String
  isSigner : Bool
  deriving DecidableEq, Repr

structure InstructionData where
  program_id : String
  accounts : List AccountMetaInfo
  instruction_data : String
  deriving DecidableEq, Repr

structure TokenTransferData where
  program_id : String
  accounts : List SendTokenResponse
  instruction_data : String
  deriving DecidableEq, Repr

/-- `/send/sol` reply data: `accounts` is a bare array of base58 strings. -/
structure SolTransferData where
  program_id : String
  accounts : List String
  instruction_data : String
  deriving DecidableEq, Repr

structure KeypairData where
  pubkey : String
  secret : String
  deriving DecidableEq, Repr

structure SignatureData where
  signature : String
  public_key : String
  message : String
  deriving DecidableEq, Repr

structure VerificationData where
  valid : Bool
  message : String
  pubkey : String
  deriving DecidableEq, Repr

/-! ## Handlers (`main.rs`)

Each handler returns the HTTP status code and the typed reply.  The two
crypto-dependent generation/signing handlers additionally take the abstract
Ed25519 primitives, and `create_keypair` takes the 32-byte random seed the
OS RNG would supply. -/

/-- `POST /keypair` (`create_keypair`, main.rs:60). -/
def create_keypair (E : Ed25519) (seed : List Nat) : Nat × Response KeypairData :=
  let pk := E.derive seed
  (200, .success
    { pubkey := b58_encode pk
      secret := b58_encode (seed ++ pk) })

/-- `POST /token/create` (`create_token`, main.rs:73). -/
def create_token (payload : MintToken) : Nat × Response InstructionData :=
  match payload.mint, payload.mintAuthority, payload.decimals with
  | some mint, some mintAuthority, some decimals =>
    match pubkeyFromStr mint with
    | none => (400, .failure "Invalid mint address")
    | some mint_pubkey =>
      match pubkeyFromStr mintAuthority with
      | none => (400, .failure "Invalid mint authority address")
      | some mint_authority =>
        match initialize_mint tokenProgramId mint_pubkey mint_authority none decimals with
        | .error _ => (400, .failure "Failed to build InitializeMint instruction")
        | .ok ix =>
          (200, .success
            { program_id := b58_encode ix.program_id
              accounts := ix.accounts.map (fun m =>
                { pubkey := b58_encode m.pubkey
                  is_signer := m.is_signer
                  is_writable := m.is_writable })
              instruction_data := base64_encode ix.data })
  | _, _, _ => (400, .failure "Missing required fields")

/-- `POST /message/sign` (`sign_message`, main.rs:151). -/
def sign_message (E : Ed25519) (payload : SignData) : Nat × Response SignatureData :=
  match payload.message, payload.secret with
  | some message, some secret =>
    match (b58_decode secret).bind (keypairFromBytes E) with
    | none => (400, .failure "Invalid secret key")
    | some (seed, pk) =>
      (200, .success
        { signature := base64_encode (E.signBytes seed (utf8Bytes message))
          public_key := b58_encode pk
          message := message })
  | _, _ => (400, .failure "Missing required fields")

/-- `POST /message/verify` (`verify_message`, main.rs:193). -/
def verify_message (E : Ed25519) (payload : VerifyData) : Nat × Response VerificationData :=
  match payload.signature, payload.message, payload.pubkey with
  | some signature, some message, some pubkey =>
    match base64_decode signature with
    | none => (400, .failure "Invalid signature encoding")
    | some signature_bytes =>
      match signatureTryFrom signature_bytes with
      | none => (400, .failure "Invalid signature format")
      | some sig =>
        match pubkeyFromStr pubkey with
        | none => (400, .failure "Invalid public key")
        | some public_key =>
          (200, .success
            { valid := E.verifyBytes public_key (utf8Bytes message) sig
              message := message
              pubkey := b58_encode public_key })
  | _, _, _ => (400, .failure "Missing required fields")

/-- `POST /send/sol` (`send_sol`, main.rs:256). -/
def send_sol (payload : SendSol) : Nat × Response SolTransferData :=
  match payload.fromAddr, payload.toAddr, payload.lamports with
  | some fromS, some toS, some lamports =>
    match pubkeyFromStr fromS with
    | none => (400, .failure "Invalid from address")
    | some fromPk =>
      match pubkeyFromStr toS with
      | none => (400, .failure "Invalid to address")
      | some toPk =>
        let ix := system_transfer fromPk toPk lamports
        (200, .success
          { program_id := b58_encode ix.program_id
            accounts := ix.accounts.map (fun m => b58_encode m.pubkey)
            instruction_data := base64_encode ix.data })
  | _, _, _ => (400, .failure "Missing required fields")

/-- `POST /send/token` (`send_token`, main.rs:310). -/
def send_token (payload : SendToken) : Nat × Response TokenTransferData :=
  match payload.destination, payload.mint, payload.owner, payload.amount with
  | some destinationS, some mintS, some ownerS, some amount =>
    match pubkeyFromStr destinationS with
    | none => (400, .failure "Invalid destination address")
    | some destination =>
      match pubkeyFromStr mintS with
      | none => (400, .failure "Invalid mint address")
      | some mint =>
        match pubkeyFromStr ownerS with
        | none => (400, .failure "Invalid owner address")
        | some owner =>
          let source_ata := get_associated_token_address owner mint
          let dest_ata := get_associated_token_address destination mint
          match spl_transfer tokenProgramId source_ata dest_ata owner [] amount with
          | .error _ => (400, .failure "Failed to build transfer instruction")
          | .ok ix =>
            (200, .success
              { program_id := b58_encode ix.program_id
                accounts := ix.accounts.map (fun m =>
                  { pubkey := b58_encode m.pubkey
                    isSigner := m.is_signer })
                instruction_data := base64_encode ix.data })
  | _, _, _, _ => (400, .failure "Missing required fields")

/-- `POST /token/mint` (`mint_token`, main.rs:406). -/
def mint_token (payload : MintTokenRequest) : Nat × Response InstructionData :=
  match payload.mint, payload.authority, payload.destination, payload.amount with
  | some mintS, some authorityS, some destinationS, some amount =>
    match pubkeyFromStr mintS with
    | none => (400, .failure "Invalid mint address")
    | some mint =>
      match pubkeyFromStr authorityS with
      | none => (400, .failure "Invalid authority address")
      | some mint_authority =>
        match pubkeyFromStr destinationS with
        | none => (400, .failure "Invalid destination address")
        | some destination =>
          let dest_ata := get_associated_token_address destination mint
          match mint_to tokenProgramId mint dest_ata mint_authority [] amount with
          | .error _ => (400, .failure "Failed to build mint_to instruction")
          | .ok ix =>
            (200, .success
              { program_id := b58_encode ix.program_id
                accounts := ix.accounts.map (fun m =>
                  { pubkey := b58_encode m.pubkey
                    is_signer := m.is_signer
                    is_writable := m.is_writable })
                instruction_data := base64_encode ix.data })
  | _, _, _, _ => (400, .failure "Missing required fields")

/-! ## Handler characterizations -/

theorem pubkeyFromStr_of_decode (s : String) (b : List Nat)
    (h : b58_decode s = some b) (h32 : b.length = 32) :
    pubkeyFromStr s = some b := by
  have hlen := b58_decode_utf8_length_le s b h h32
  rw [pubkeyFromStr, if_neg (by omega), h]
  simp [h32]

theorem send_sol_ok (fromS toS : String) (fb tb : List Nat) (lamports : Nat)
    (hf : b58_decode fromS = some fb) (hf32 : fb.length = 32)
    (ht : b58_decode toS = some tb) (ht32 : tb.length = 32) :
    send_sol { fromAddr := some fromS, toAddr := some toS, lamports := some lamports } =
      (200, .success
        { program_id := b58_encode systemProgramId
          accounts := [b58_encode fb, b58_encode tb]
          instruction_data := base64_encode (natLE 4 2 ++ natLE 8 lamports) }) := by
  simp only [send_sol]
  rw [pubkeyFromStr_of_decode _ _ hf hf32, pubkeyFromStr_of_decode _ _ ht ht32]
  rfl

theorem create_token_ok (mintS authS : String) (mb ab : List Nat) (decimals : Nat)
    (hm : b58_decode mintS = some mb) (hm32 : mb.length = 32)
    (ha : b58_decode authS = some ab) (ha32 : ab.length = 32) :
    create_token { mintAuthority := some authS, mint := some mintS, decimals := some decimals } =
      (200, .success
        { program_id := b58_encode tokenProgramId
          accounts :=
            [{ pubkey := b58_encode mb, is_signer := false, is_writable := true },
             { pubkey := b58_encode rentSysvarId, is_signer := false, is_writable := false }]
          instruction_data := base64_encode (0 :: decimals :: ab ++ [0]) }) := by
  simp only [create_token]
  rw [pubkeyFromStr_of_decode _ _ hm hm32, pubkeyFromStr_of_decode _ _ ha ha32]
  rfl

theorem send_token_ok (destS mintS ownerS : String) (db mb ob : List Nat) (amount : Nat)
    (hd : b58_decode destS = some db) (hd32 : db.length = 32)
    (hm : b58_decode mintS = some mb) (hm32 : mb.length = 32)
    (ho : b58_decode ownerS = some ob) (ho32 : ob.length = 32) :
    send_token { destination := some destS, mint := some mintS, owner := some ownerS, amount := some amount } =
      (200, .success
        { program_id := b58_encode tokenProgramId
          accounts :=
            [{ pubkey := b58_encode (get_associated_token_address ob mb), isSigner := false },
             { pubkey := b58_encode (get_associated_token_address db mb), isSigner := false },
             { pubkey := b58_encode ob, isSigner := true }]
          instruction_data := base64_encode (3 :: natLE 8 amount) }) := by
  simp only [send_token]
  rw [pubkeyFromStr_of_decode _ _ hd hd32, pubkeyFromStr_of_decode _ _ hm hm32,
    pubkeyFromStr_of_decode _ _ ho ho32]
  rfl

theorem mint_token_ok (mintS authS destS : String) (mb ab db : List Nat) (amount : Nat)
    (hm : b58_decode mintS = some mb) (hm32 : mb.length = 32)
    (ha : b58_decode authS = some ab) (ha32 : ab.length = 32)
    (hd : b58_decode destS = some db) (hd32 : db.length = 32) :
    mint_token { mint := some mintS, destination := some destS, authority := some authS, amount := some amount } =
      (200, .success
        { program_id := b58_encode tokenProgramId
          accounts :=
            [{ pubkey := b58_encode mb, is_signer := false, is_writable := true },
             { pubkey := b58_encode (get_associated_token_address db mb),
               is_signer := false, is_writable := true },
             { pubkey := b58_encode ab, is_signer := true, is_writable := false }]
          instruction_data := base64_encode (7 :: natLE 8 amount) }) := by
  simp only [mint_token]
  rw [pubkeyFromStr_of_decode _ _ hm hm32, pubkeyFromStr_of_decode _ _ ha ha32,
    pubkeyFromStr_of_decode _ _ hd hd32]
  rfl

theorem keypairFromBytes_ok (E : Ed25519) (seed : List Nat)
    (hseed : seed.length = 32) (hder32 : (E.derive seed).length = 32)
    (hpv : E.pointValid (E.derive seed) = true) :
    keypairFromBytes E (seed ++ E.derive seed) = some (seed, E.derive seed) := by
  have hlen : (seed ++ E.derive seed).length = 64 := by simp [hseed, hder32]
  have hdrop : (seed ++ E.derive seed).drop 32 = E.derive seed := List.drop_left' hseed
  have htake : (seed ++ E.derive seed).take 32 = seed := List.take_left' hseed
  rw [keypairFromBytes, if_neg (by omega)]
  simp only [hdrop, htake, hder32, hpv, if_pos, if_true]

theorem sign_message_ok (E : Ed25519) (seed : List Nat) (msgS : String)
    (hseed : seed.length = 32) (hder32 : (E.derive seed).length = 32)
    (hbytes : ∀ x ∈ seed ++ E.derive seed, x < 256)
    (hpv : E.pointValid (E.derive seed) = true) :
    sign_message E { message := some msgS, secret := some (b58_encode (seed ++ E.derive seed)) } =
      (200, .success
        { signature := base64_encode (E.signBytes seed (utf8Bytes msgS))
          public_key := b58_encode (E.derive seed)
          message := msgS }) := by
  simp only [sign_message]
  rw [b58_decode_encode _ hbytes, Option.some_bind,
    keypairFromBytes_ok E seed hseed hder32 hpv]

theorem sign_message_reject (E : Ed25519) (msgS secS : String)
    (hbad : ∀ v, b58_decode secS = some v → v.length = 64 →
      v.drop 32 ≠ E.derive (v.take 32)) :
    sign_message E { message := some msgS, secret := some secS } =
      (400, .failure "Invalid secret key") := by
  simp only [sign_message]
  rcases hdec : b58_decode secS with _ | v
  · rfl
  · rw [Option.some_bind]
    rw [keypairFromBytes]
    by_cases hlt : v.length < 64
    · rw [if_pos hlt]
    · rw [if_neg hlt]
      by_cases hpk : (v.drop 32).length = 32
      · have h64 : v.length = 64 := by
          rw [List.length_drop] at hpk
          omega
        simp only [hpk, if_pos, if_true]
        by_cases hv : E.pointValid (v.drop 32)
        · simp only [hv, if_pos, if_true, if_neg (hbad v hdec h64)]
        · simp only [hv, if_neg, Bool.false_eq_true, if_false]
      · simp only [hpk, if_neg, if_false]

theorem verify_message_ok (E : Ed25519) (sigS msgS pkS : String)
    (sb pb : List Nat)
    (hsig : base64_decode sigS = some sb) (h64 : sb.length = 64)
    (hpk : b58_decode pkS = some pb) (hpk32 : pb.length = 32) :
    verify_message E { signature := some sigS, message := some msgS, pubkey := some pkS } =
      (200, .success
        { valid := E.verifyBytes pb (utf8Bytes msgS) sb
          message := msgS
          pubkey := b58_encode pb }) := by
  simp only [verify_message]
  rw [hsig]
  simp only [signatureTryFrom]
  rw [if_pos h64, pubkeyFromStr_of_decode _ _ hpk hpk32]

theorem verify_message_bad_encoding (E : Ed25519) (sigS msgS pkS : String)
    (hsig : base64_decode sigS = none) :
    verify_message E { signature := some sigS, message := some msgS, pubkey := some pkS } =
      (400, .failure "Invalid signature encoding") := by
  simp only [verify_message]
  rw [hsig]

theorem verify_message_bad_format (E : Ed25519) (sigS msgS pkS : String)
    (sb : List Nat) (hsig : base64_decode sigS = some sb) (h64 : sb.length ≠ 64) :
    verify_message E { signature := some sigS, message := some msgS, pubkey := some pkS } =
      (400, .failure "Invalid signature format") := by
  simp only [verify_message]
  rw [hsig]
  simp only [signatureTryFrom]
  rw [if_neg h64]

/-! ## The claims -/

/-- C1: for every `/send/sol` request whose `from` and `to` decode from
base58 to 32 bytes and whose `lamports` is a `u64`, the handler returns
HTTP 200 with `program_id` the base58 System program id, `accounts` the
two-element array of bare base58 strings `[from, to]` in that order, and
`instruction_data` whose base64 decoding is the tag `0x02` as a
little-endian `u32` followed by `lamports` as a little-endian `u64` (for
`lamports = 1000` the 12 bytes `02 00 00 00 E8 03 00 00 00 00 00 00`). -/
theorem claim_C1 (fromS toS : String) (fb tb : List Nat) (lamports : Nat)
    (hf : b58_decode fromS = some fb) (hf32 : fb.length = 32)
    (ht : b58_decode toS = some tb) (ht32 : tb.length = 32)
    (hu64 : lamports < 2 ^ 64) :
    send_sol { fromAddr := some fromS, toAddr := some toS, lamports := some lamports } =
      (200, .success
        { program_id := "11111111111111111111111111111111"
          accounts := [fromS, toS]
          instruction_data := base64_encode (natLE 4 2 ++ natLE 8 lamports) }) ∧
    base64_decode (base64_encode (natLE 4 2 ++ natLE 8 lamports)) =
      some (natLE 4 2 ++ natLE 8 lamports) ∧
    natLE 4 2 ++ natLE 8 1000 = [2, 0, 0, 0, 232, 3, 0, 0, 0, 0, 0, 0] := by
  refine ⟨?_, ?_, by decide⟩
  · rw [send_sol_ok fromS toS fb tb lamports hf hf32 ht ht32, systemProgramId_b58,
      b58_encode_decode fromS fb hf, b58_encode_decode toS tb ht]
  · apply base64_decode_encode
    intro x hx
    rcases List.mem_append.mp hx with h | h
    · exact natLE_lt 4 2 x h
    · exact natLE_lt 8 lamports x h

/-- Witness for C1 at the spec's concrete scenario (§8 scenario 4). -/
theorem claim_C1_witness :
    send_sol { fromAddr := some "11111111111111111111111111111111", toAddr := some "11111111111111111111111111111112", lamports := some 1000 } =
      (200, .success
        { program_id := "11111111111111111111111111111111"
          accounts := ["11111111111111111111111111111111", "11111111111111111111111111111112"]
          instruction_data := base64_encode (natLE 4 2 ++ natLE 8 1000) }) ∧
    base64_decode (base64_encode (natLE 4 2 ++ natLE 8 1000)) =
      some (natLE 4 2 ++ natLE 8 1000) ∧
    natLE 4 2 ++ natLE 8 1000 = [2, 0, 0, 0, 232, 3, 0, 0, 0, 0, 0, 0] :=
  claim_C1 "11111111111111111111111111111111" "11111111111111111111111111111112"
    (List.replicate 32 0) (List.replicate 31 0 ++ [1]) 1000
    (by decide) (by decide) (by decide) (by decide) (by decide)

/-- C3: for every `/token/create` request whose `mint` and `mintAuthority`
decode from base58 to 32 bytes and whose `decimals` is a `u8`, the handler
returns HTTP 200 with `program_id` the base58 SPL-Token program id,
accounts `[{mint, false, true}, {rent sysvar, false, false}]`, and
`instruction_data` whose base64 decoding is `0x00`, `decimals`, the 32
mint-authority bytes, then `0x00` (freeze-authority `None` tag). -/
theorem claim_C3 (mintS authS : String) (mb ab : List Nat) (decimals : Nat)
    (hm : b58_decode mintS = some mb) (hm32 : mb.length = 32)
    (ha : b58_decode authS = some ab) (ha32 : ab.length = 32)
    (hu8 : decimals < 256) :
    create_token { mintAuthority := some authS, mint := some mintS, decimals := some decimals } =
      (200, .success
        { program_id := "TokenkegQfeZyiNwAJbNbGKPFXCWuBvf9Ss623VQ5DA"
          accounts :=
            [{ pubkey := mintS, is_signer := false, is_writable := true },
             { pubkey := "SysvarRent111111111111111111111111111111111",
               is_signer := false, is_writable := false }]
          instruction_data := base64_encode (0 :: decimals :: ab ++ [0]) }) ∧
    base64_decode (base64_encode (0 :: decimals :: ab ++ [0])) =
      some (0 :: decimals :: ab ++ [0]) := by
  constructor
  · rw [create_token_ok mintS authS mb ab decimals hm hm32 ha ha32, tokenProgramId_b58,
      rentSysvarId_b58, b58_encode_decode mintS mb hm]
  · apply base64_decode_encode
    intro x hx
    rcases List.mem_cons.mp hx with rfl | hx
    · omega
    rcases List.mem_cons.mp hx with rfl | hx
    · omega
    rcases List.mem_append.mp hx with h | h
    · exact b58_decode_bounds authS ab ha x h
    · simp at h
      omega

/-- Witness for C3 (§8 scenario 5, `decimals = 9`). -/
theorem claim_C3_witness :
    create_token { mintAuthority := some "11111111111111111111111111111113", mint := some "11111111111111111111111111111112", decimals := some 9 } =
      (200, .success
        { program_id := "TokenkegQfeZyiNwAJbNbGKPFXCWuBvf9Ss623VQ5DA"
          accounts :=
            [{ pubkey := "11111111111111111111111111111112", is_signer := false, is_writable := true },
             { pubkey := "SysvarRent111111111111111111111111111111111",
               is_signer := false, is_writable := false }]
          instruction_data := base64_encode (0 :: 9 :: (List.replicate 31 0 ++ [2]) ++ [0]) }) ∧
    base64_decode (base64_encode (0 :: 9 :: (List.replicate 31 0 ++ [2]) ++ [0])) =
      some (0 :: 9 :: (List.replicate 31 0 ++ [2]) ++ [0]) :=
  claim_C3 "11111111111111111111111111111112" "11111111111111111111111111111113"
    (List.replicate 31 0 ++ [1]) (List.replicate 31 0 ++ [2]) 9
    (by decide) (by decide) (by decide) (by decide) (by decide)

/-- C4: for every `/send/token` request whose `destination`, `mint` and
`owner` decode from base58 to 32 bytes and whose `amount` is a `u64`, the
handler returns HTTP 200 with `program_id` the base58 SPL-Token program id;
exactly three accounts `[source_ata, dest_ata, owner]` where `source_ata`
derives from `(owner, mint)` and `dest_ata` from `(destination, mint)`;
each element carries only `pubkey` and `isSigner` (the `SendTokenResponse`
shape), with `isSigner` true only for the owner; and `instruction_data`
base64-decodes to `0x03` followed by `amount` little-endian `u64`. -/
theorem claim_C4 (destS mintS ownerS : String) (db mb ob : List Nat) (amount : Nat)
    (hd : b58_decode destS = some db) (hd32 : db.length = 32)
    (hm : b58_decode mintS = some mb) (hm32 : mb.length = 32)
    (ho : b58_decode ownerS = some ob) (ho32 : ob.length = 32)
    (hu64 : amount < 2 ^ 64) :
    send_token { destination := some destS, mint := some mintS, owner := some ownerS, amount := some amount } =
      (200, .success
        { program_id := "TokenkegQfeZyiNwAJbNbGKPFXCWuBvf9Ss623VQ5DA"
          accounts :=
            [{ pubkey := b58_encode (get_associated_token_address ob mb), isSigner := false },
             { pubkey := b58_encode (get_associated_token_address db mb), isSigner := false },
             { pubkey := ownerS, isSigner := true }]
          instruction_data := base64_encode (3 :: natLE 8 amount) }) ∧
    base64_decode (base64_encode (3 :: natLE 8 amount)) = some (3 :: natLE 8 amount) := by
  constructor
  · rw [send_token_ok destS mintS ownerS db mb ob amount hd hd32 hm hm32 ho ho32,
      tokenProgramId_b58, b58_encode_decode ownerS ob ho]
  · apply base64_decode_encode
    intro x hx
    rcases List.mem_cons.mp hx with rfl | hx
    · omega
    · exact natLE_lt 8 amount x hx

/-- Witness for C4 at a concrete request. -/
theorem claim_C4_witness :
    send_token { destination := some "11111111111111111111111111111113", mint := some "11111111111111111111111111111112", owner := some "11111111111111111111111111111114", amount := some 5 } =
      (200, .success
        { program_id := "TokenkegQfeZyiNwAJbNbGKPFXCWuBvf9Ss623VQ5DA"
          accounts :=
            [{ pubkey := b58_encode (get_associated_token_address
                 (List.replicate 31 0 ++ [3]) (List.replicate 31 0 ++ [1])), isSigner := false },
             { pubkey := b58_encode (get_associated_token_address
                 (List.replicate 31 0 ++ [2]) (List.replicate 31 0 ++ [1])), isSigner := false },
             { pubkey := "11111111111111111111111111111114", isSigner := true }]
          instruction_data := base64_encode (3 :: natLE 8 5) }) ∧
    base64_decode (base64_encode (3 :: natLE 8 5)) = some (3 :: natLE 8 5) :=
  claim_C4 "11111111111111111111111111111113" "11111111111111111111111111111112"
    "11111111111111111111111111111114"
    (List.replicate 31 0 ++ [2]) (List.replicate 31 0 ++ [1]) (List.replicate 31 0 ++ [3]) 5
    (by decide) (by decide) (by decide) (by decide) (by decide) (by decide) (by decide)

/-- C2 (as amended): for every `/token/mint` request with valid fields, the
second element of the returned accounts array has `pubkey` equal to the
base58 encoding of the associated token account derived from
`(destination, mint)` — not of the raw destination public key. -/
theorem claim_C2_amended (mintS authS destS : String) (mb ab db : List Nat) (amount : Nat)
    (hm : b58_decode mintS = some mb) (hm32 : mb.length = 32)
    (ha : b58_decode authS = some ab) (ha32 : ab.length = 32)
    (hd : b58_decode destS = some db) (hd32 : db.length = 32)
    (hu64 : amount < 2 ^ 64) :
    mint_token { mint := some mintS, destination := some destS, authority := some authS, amount := some amount } =
      (200, .success
        { program_id := "TokenkegQfeZyiNwAJbNbGKPFXCWuBvf9Ss623VQ5DA"
          accounts :=
            [{ pubkey := mintS, is_signer := false, is_writable := true },
             { pubkey := b58_encode (get_associated_token_address db mb),
               is_signer := false, is_writable := true },
             { pubkey := authS, is_signer := true, is_writable := false }]
          instruction_data := base64_encode (7 :: natLE 8 amount) }) := by
  rw [mint_token_ok mintS authS destS mb ab db amount hm hm32 ha ha32 hd hd32,
    tokenProgramId_b58, b58_encode_decode mintS mb hm, b58_encode_decode authS ab ha]

/-- Witness for the amended C2. -/
theorem claim_C2_amended_witness :
    mint_token { mint := some "11111111111111111111111111111112", destination := some "11111111111111111111111111111113", authority := some "11111111111111111111111111111114", amount := some 7 } =
      (200, .success
        { program_id := "TokenkegQfeZyiNwAJbNbGKPFXCWuBvf9Ss623VQ5DA"
          accounts :=
            [{ pubkey := "11111111111111111111111111111112", is_signer := false, is_writable := true },
             { pubkey := b58_encode (get_associated_token_address
                 (List.replicate 31 0 ++ [2]) (List.replicate 31 0 ++ [1])),
               is_signer := false, is_writable := true },
             { pubkey := "11111111111111111111111111111114", is_signer := true, is_writable := false }]
          instruction_data := base64_encode (7 :: natLE 8 7) }) :=
  claim_C2_amended "11111111111111111111111111111112" "11111111111111111111111111111114"
    "11111111111111111111111111111113"
    (List.replicate 31 0 ++ [1]) (List.replicate 31 0 ++ [3]) (List.replicate 31 0 ++ [2]) 7
    (by decide) (by decide) (by decide) (by decide) (by decide) (by decide) (by decide)

set_option maxRecDepth 1000000 in
/-- Counterexample to C2 as stated: at this concrete `/token/mint` request
(destination `11111111111111111111111111111113`) the handler succeeds but
the second account's `pubkey` is the derived associated token account
`C26j4gitupb5wUGUWbzTgjVmqhoooETYiefzTo1yaSoE`, not the raw destination. -/
theorem claim_C2_counterexample :
    mint_token { mint := some "11111111111111111111111111111112", destination := some "11111111111111111111111111111113", authority := some "11111111111111111111111111111114", amount := some 7 } =
      (200, .success
        { program_id := "TokenkegQfeZyiNwAJbNbGKPFXCWuBvf9Ss623VQ5DA"
          accounts :=
            [{ pubkey := "11111111111111111111111111111112", is_signer := false, is_writable := true },
             { pubkey := "C26j4gitupb5wUGUWbzTgjVmqhoooETYiefzTo1yaSoE",
               is_signer := false, is_writable := true },
             { pubkey := "11111111111111111111111111111114", is_signer := true, is_writable := false }]
          instruction_data := "BwcAAAAAAAAA" }) ∧
    "C26j4gitupb5wUGUWbzTgjVmqhoooETYiefzTo1yaSoE" ≠ "11111111111111111111111111111113" := by
  constructor
  · decide
  · decide

/-- C5: for every `/message/verify` request whose `signature` base64-decodes
to exactly 64 bytes and whose `pubkey` base58-decodes to exactly 32 bytes,
the handler returns HTTP 200 with a boolean `valid` field (the Ed25519
verification result — `false`, never an error, on a cryptographically
invalid signature); base64 decode failure gives 400 `Invalid signature
encoding` and a decoded length other than 64 gives 400 `Invalid signature
format`. -/
theorem claim_C5 (E : Ed25519) (sigS msgS pkS : String) :
    (∀ sb pb, base64_decode sigS = some sb → sb.length = 64 →
      b58_decode pkS = some pb → pb.length = 32 →
      verify_message E { signature := some sigS, message := some msgS, pubkey := some pkS } =
        (200, .success
          { valid := E.verifyBytes pb (utf8Bytes msgS) sb
            message := msgS
            pubkey := b58_encode pb })) ∧
    (base64_decode sigS = none →
      verify_message E { signature := some sigS, message := some msgS, pubkey := some pkS } =
        (400, .failure "Invalid signature encoding")) ∧
    (∀ sb, base64_decode sigS = some sb → sb.length ≠ 64 →
      verify_message E { signature := some sigS, message := some msgS, pubkey := some pkS } =
        (400, .failure "Invalid signature format")) := by
  refine ⟨?_, ?_, ?_⟩
  · intro sb pb hsig h64 hpk hpk32
    exact verify_message_ok E sigS msgS pkS sb pb hsig h64 hpk hpk32
  · intro hsig
    exact verify_message_bad_encoding E sigS msgS pkS hsig
  · intro sb hsig h64
    exact verify_message_bad_format E sigS msgS pkS sb hsig h64

/-- Witness for C5: a structurally valid signature and key give 200 with a
boolean `valid`; `"!!!"` fails base64 decoding; `"AAAA"` decodes to 3 ≠ 64
bytes. -/
theorem claim_C5_witness :
    verify_message dummyEd { signature := some (base64_encode (List.replicate 64 0)), message := some "hello", pubkey := some "11111111111111111111111111111111" } =
      (200, .success
        { valid := dummyEd.verifyBytes (List.replicate 32 0) (utf8Bytes "hello") (List.replicate 64 0)
          message := "hello"
          pubkey := b58_encode (List.replicate 32 0) }) ∧
    verify_message dummyEd { signature := some "!!!", message := some "hello", pubkey := some "11111111111111111111111111111111" } =
      (400, .failure "Invalid signature encoding") ∧
    verify_message dummyEd { signature := some "AAAA", message := some "hello", pubkey := some "11111111111111111111111111111111" } =
      (400, .failure "Invalid signature format") :=
  ⟨(claim_C5 dummyEd (base64_encode (List.replicate 64 0)) "hello"
      "11111111111111111111111111111111").1 (List.replicate 64 0) (List.replicate 32 0)
      (by decide) (by decide) (by decide) (by decide),
   (claim_C5 dummyEd "!!!" "hello" "11111111111111111111111111111111").2.1 (by decide),
   (claim_C5 dummyEd "AAAA" "hello" "11111111111111111111111111111111").2.2
      [0, 0, 0] (by decide) (by decide)⟩

/-- C6: `/message/sign` returns a 400 error reply unless the secret
base58-decodes to exactly 64 bytes whose trailing 32 bytes equal the
Ed25519 public key derived from the leading 32; in particular a 64-byte
secret whose last 32 bytes do not match the derivation is rejected. -/
theorem claim_C6 (E : Ed25519) (msgS secS : String)
    (hbad : ∀ v, b58_decode secS = some v → v.length = 64 →
      v.drop 32 ≠ E.derive (v.take 32)) :
    sign_message E { message := some msgS, secret := some secS } =
      (400, .failure "Invalid secret key") :=
  sign_message_reject E msgS secS hbad

/-- Witness for C6: a 64-byte secret whose trailing 32 bytes do not equal
the derived public key is rejected. -/
theorem claim_C6_witness :
    sign_message dummyEd { message := some "hello", secret := some (b58_encode (List.replicate 64 1)) } =
      (400, .failure "Invalid secret key") :=
  claim_C6 dummyEd "hello" (b58_encode (List.replicate 64 1))
    (by
      intro v hv h64
      rw [b58_decode_encode (List.replicate 64 1) (by decide)] at hv
      injection hv with hv
      subst hv
      decide)

/-- C7: every keypair produced by `/keypair` has a `secret` that
base58-decodes to exactly 64 bytes and a `pubkey` that base58-decodes to
exactly the trailing 32 bytes (bytes 32..64) of that secret. -/
theorem claim_C7 (E : Ed25519) (seed : List Nat)
    (hseed : seed.length = 32) (hsb : ∀ x ∈ seed, x < 256)
    (hder32 : (E.derive seed).length = 32) (hderb : ∀ x ∈ E.derive seed, x < 256) :
    create_keypair E seed =
      (200, .success
        { pubkey := b58_encode (E.derive seed)
          secret := b58_encode (seed ++ E.derive seed) }) ∧
    b58_decode (b58_encode (seed ++ E.derive seed)) = some (seed ++ E.derive seed) ∧
    (seed ++ E.derive seed).length = 64 ∧
    b58_decode (b58_encode (E.derive seed)) = some ((seed ++ E.derive seed).drop 32) := by
  have hcat : ∀ x ∈ seed ++ E.derive seed, x < 256 := by
    intro x hx
    rcases List.mem_append.mp hx with h | h
    · exact hsb x h
    · exact hderb x h
  refine ⟨rfl, b58_decode_encode _ hcat, by simp [hseed, hder32], ?_⟩
  rw [List.drop_left' hseed]
  exact b58_decode_encode _ hderb

/-- Witness for C7 at a concrete seed. -/
theorem claim_C7_witness :
    create_keypair dummyEd (List.replicate 32 5) =
      (200, .success
        { pubkey := b58_encode (dummyEd.derive (List.replicate 32 5))
          secret := b58_encode (List.replicate 32 5 ++ dummyEd.derive (List.replicate 32 5)) }) ∧
    b58_decode (b58_encode (List.replicate 32 5 ++ dummyEd.derive (List.replicate 32 5))) =
      some (List.replicate 32 5 ++ dummyEd.derive (List.replicate 32 5)) ∧
    (List.replicate 32 5 ++ dummyEd.derive (List.replicate 32 5)).length = 64 ∧
    b58_decode (b58_encode (dummyEd.derive (List.replicate 32 5))) =
      some ((List.replicate 32 5 ++ dummyEd.derive (List.replicate 32 5)).drop 32) :=
  claim_C7 dummyEd (List.replicate 32 5) (by decide) (by decide) (by decide) (by decide)

/-- C8: signing a message with a valid keypair's secret via `/message/sign`
and verifying the produced base64 signature via `/message/verify` with the
keypair's public key and the same message yields `valid = true`; the
signature is the plain Ed25519 detached signature over the raw UTF-8 bytes
of the message (`E.signBytes` applied to `utf8Bytes msgS`; Ed25519ph is not
used).  The Ed25519 sign/verify law enters as the hypothesis `hlaw`. -/
theorem claim_C8 (E : Ed25519) (seed : List Nat) (msgS : String)
    (hseed : seed.length = 32) (hsb : ∀ x ∈ seed, x < 256)
    (hder32 : (E.derive seed).length = 32) (hderb : ∀ x ∈ E.derive seed, x < 256)
    (hpv : E.pointValid (E.derive seed) = true)
    (hsig64 : (E.signBytes seed (utf8Bytes msgS)).length = 64)
    (hsigb : ∀ x ∈ E.signBytes seed (utf8Bytes msgS), x < 256)
    (hlaw : E.verifyBytes (E.derive seed) (utf8Bytes msgS)
      (E.signBytes seed (utf8Bytes msgS)) = true) :
    sign_message E { message := some msgS, secret := some (b58_encode (seed ++ E.derive seed)) } =
      (200, .success
        { signature := base64_encode (E.signBytes seed (utf8Bytes msgS))
          public_key := b58_encode (E.derive seed)
          message := msgS }) ∧
    verify_message E { signature := some (base64_encode (E.signBytes seed (utf8Bytes msgS))), message := some msgS, pubkey := some (b58_encode (E.derive seed)) } =
      (200, .success
        { valid := true
          message := msgS
          pubkey := b58_encode (E.derive seed) }) := by
  have hcat : ∀ x ∈ seed ++ E.derive seed, x < 256 := by
    intro x hx
    rcases List.mem_append.mp hx with h | h
    · exact hsb x h
    · exact hderb x h
  constructor
  · exact sign_message_ok E seed msgS hseed hder32 hcat hpv
  · rw [verify_message_ok E _ msgS _ (E.signBytes seed (utf8Bytes msgS)) (E.derive seed)
      (base64_decode_encode _ hsigb) hsig64 (b58_decode_encode _ hderb) hder32, hlaw]

/-- Witness for C8 at a concrete keypair and message. -/
theorem claim_C8_witness :
    sign_message dummyEd { message := some "hi", secret := some (b58_encode (List.replicate 32 2 ++ dummyEd.derive (List.replicate 32 2))) } =
      (200, .success
        { signature := base64_encode (dummyEd.signBytes (List.replicate 32 2) (utf8Bytes "hi"))
          public_key := b58_encode (dummyEd.derive (List.replicate 32 2))
          message := "hi" }) ∧
    verify_message dummyEd { signature := some (base64_encode (dummyEd.signBytes (List.replicate 32 2) (utf8Bytes "hi"))), message := some "hi", pubkey := some (b58_encode (dummyEd.derive (List.replicate 32 2))) } =
      (200, .success
        { valid := true
          message := "hi"
          pubkey := b58_encode (dummyEd.derive (List.replicate 32 2)) }) :=
  claim_C8 dummyEd (List.replicate 32 2) "hi" (by decide) (by decide) (by decide)
    (by decide) (by decide) (by decide) (by decide) (by decide)

/-- C9: for every operation taking request fields (`/token/create`,
`/token/mint`, `/message/sign`, `/message/verify`, `/send/sol`,
`/send/token`), a missing required field yields HTTP 400
`{success:false, error:"Missing required fields"}`; no other field is
parsed or validated in that case — the reply is this error for every value
of the remaining fields. -/
theorem claim_C9 :
    (∀ p : MintToken, (p.mint = none ∨ p.mintAuthority = none ∨ p.decimals = none) →
      create_token p = (400, .failure "Missing required fields")) ∧
    (∀ p : MintTokenRequest,
      (p.mint = none ∨ p.authority = none ∨ p.destination = none ∨ p.amount = none) →
      mint_token p = (400, .failure "Missing required fields")) ∧
    (∀ (E : Ed25519) (p : SignData), (p.message = none ∨ p.secret = none) →
      sign_message E p = (400, .failure "Missing required fields")) ∧
    (∀ (E : Ed25519) (p : VerifyData),
      (p.signature = none ∨ p.message = none ∨ p.pubkey = none) →
      verify_message E p = (400, .failure "Missing required fields")) ∧
    (∀ p : SendSol, (p.fromAddr = none ∨ p.toAddr = none ∨ p.lamports = none) →
      send_sol p = (400, .failure "Missing required fields")) ∧
    (∀ p : SendToken,
      (p.destination = none ∨ p.mint = none ∨ p.owner = none ∨ p.amount = none) →
      send_token p = (400, .failure "Missing required fields")) := by
  refine ⟨?_, ?_, ?_, ?_, ?_, ?_⟩
  · intro p h
    rcases p with ⟨ma, mi, de⟩
    rcases mi with _ | mi
    · rfl
    rcases ma with _ | ma
    · rfl
    rcases de with _ | de
    · rfl
    · simp at h
  · intro p h
    rcases p with ⟨mi, de, au, am⟩
    rcases mi with _ | mi
    · rfl
    rcases au with _ | au
    · rfl
    rcases de with _ | de
    · rfl
    rcases am with _ | am
    · rfl
    · simp at h
  · intro E p h
    rcases p with ⟨me, se⟩
    rcases me with _ | me
    · rfl
    rcases se with _ | se
    · rfl
    · simp at h
  · intro E p h
    rcases p with ⟨si, me, pk⟩
    rcases si with _ | si
    · rfl
    rcases me with _ | me
    · rfl
    rcases pk with _ | pk
    · rfl
    · simp at h
  · intro p h
    rcases p with ⟨fr, t, la⟩
    rcases fr with _ | fr
    · rfl
    rcases t with _ | t
    · rfl
    rcases la with _ | la
    · rfl
    · simp at h
  · intro p h
    rcases p with ⟨de, mi, ow, am⟩
    rcases de with _ | de
    · rfl
    rcases mi with _ | mi
    · rfl
    rcases ow with _ | ow
    · rfl
    rcases am with _ | am
    · rfl
    · simp at h

/-- Witness for C9: all-absent request bodies for all six handlers. -/
theorem claim_C9_witness :
    create_token { mintAuthority := none, mint := none, decimals := none } =
      (400, .failure "Missing required fields") ∧
    mint_token { mint := none, destination := none, authority := none, amount := none } =
      (400, .failure "Missing required fields") ∧
    sign_message dummyEd { message := none, secret := none } =
      (400, .failure "Missing required fields") ∧
    verify_message dummyEd { signature := none, message := none, pubkey := none } =
      (400, .failure "Missing required fields") ∧
    send_sol { fromAddr := none, toAddr := none, lamports := none } =
      (400, .failure "Missing required fields") ∧
    send_token { destination := none, mint := none, owner := none, amount := none } =
      (400, .failure "Missing required fields") :=
  ⟨claim_C9.1 _ (Or.inl rfl), claim_C9.2.1 _ (Or.inl rfl),
   claim_C9.2.2.1 dummyEd _ (Or.inl rfl), claim_C9.2.2.2.1 dummyEd _ (Or.inl rfl),
   claim_C9.2.2.2.2.1 _ (Or.inl rfl), claim_C9.2.2.2.2.2 _ (Or.inl rfl)⟩

/-- C10: with valid addresses a zero quantity is accepted — `/send/sol`
with `lamports = 0`, `/send/token` with `amount = 0` and `/token/mint` with
`amount = 0` each return HTTP 200 with a success reply; no handler requires
the quantity to be positive. -/
theorem claim_C10 (fromS toS destS mintS ownerS mintS2 destS2 authS2 : String)
    (fb tb db mb ob mb2 db2 ab2 : List Nat)
    (hf : b58_decode fromS = some fb) (hf32 : fb.length = 32)
    (ht : b58_decode toS = some tb) (ht32 : tb.length = 32)
    (hd : b58_decode destS = some db) (hd32 : db.length = 32)
    (hm : b58_decode mintS = some mb) (hm32 : mb.length = 32)
    (ho : b58_decode ownerS = some ob) (ho32 : ob.length = 32)
    (hm2 : b58_decode mintS2 = some mb2) (hm232 : mb2.length = 32)
    (hd2 : b58_decode destS2 = some db2) (hd232 : db2.length = 32)
    (ha2 : b58_decode authS2 = some ab2) (ha232 : ab2.length = 32) :
    send_sol { fromAddr := some fromS, toAddr := some toS, lamports := some 0 } =
      (200, .success
        { program_id := b58_encode systemProgramId
          accounts := [b58_encode fb, b58_encode tb]
          instruction_data := base64_encode (natLE 4 2 ++ natLE 8 0) }) ∧
    send_token { destination := some destS, mint := some mintS, owner := some ownerS, amount := some 0 } =
      (200, .success
        { program_id := b58_encode tokenProgramId
          accounts :=
            [{ pubkey := b58_encode (get_associated_token_address ob mb), isSigner := false },
             { pubkey := b58_encode (get_associated_token_address db mb), isSigner := false },
             { pubkey := b58_encode ob, isSigner := true }]
          instruction_data := base64_encode (3 :: natLE 8 0) }) ∧
    mint_token { mint := some mintS2, destination := some destS2, authority := some authS2, amount := some 0 } =
      (200, .success
        { program_id := b58_encode tokenProgramId
          accounts :=
            [{ pubkey := b58_encode mb2, is_signer := false, is_writable := true },
             { pubkey := b58_encode (get_associated_token_address db2 mb2),
               is_signer := false, is_writable := true },
             { pubkey := b58_encode ab2, is_signer := true, is_writable := false }]
          instruction_data := base64_encode (7 :: natLE 8 0) }) :=
  ⟨send_sol_ok fromS toS fb tb 0 hf hf32 ht ht32,
   send_token_ok destS mintS ownerS db mb ob 0 hd hd32 hm hm32 ho ho32,
   mint_token_ok mintS2 authS2 destS2 mb2 ab2 db2 0 hm2 hm232 ha2 ha232 hd2 hd232⟩

/-- Witness for C10 at concrete addresses. -/
theorem claim_C10_witness :
    send_sol { fromAddr := some "11111111111111111111111111111111", toAddr := some "11111111111111111111111111111112", lamports := some 0 } =
      (200, .success
        { program_id := b58_encode systemProgramId
          accounts := [b58_encode (List.replicate 32 0), b58_encode (List.replicate 31 0 ++ [1])]
          instruction_data := base64_encode (natLE 4 2 ++ natLE 8 0) }) ∧
    send_token { destination := some "11111111111111111111111111111113", mint := some "11111111111111111111111111111112", owner := some "11111111111111111111111111111114", amount := some 0 } =
      (200, .success
        { program_id := b58_encode tokenProgramId
          accounts :=
            [{ pubkey := b58_encode (get_associated_token_address
                 (List.replicate 31 0 ++ [3]) (List.replicate 31 0 ++ [1])), isSigner := false },
             { pubkey := b58_encode (get_associated_token_address
                 (List.replicate 31 0 ++ [2]) (List.replicate 31 0 ++ [1])), isSigner := false },
             { pubkey := b58_encode (List.replicate 31 0 ++ [3]), isSigner := true }]
          instruction_data := base64_encode (3 :: natLE 8 0) }) ∧
    mint_token { mint := some "11111111111111111111111111111112", destination := some "11111111111111111111111111111113", authority := some "11111111111111111111111111111114", amount := some 0 } =
      (200, .success
        { program_id := b58_encode tokenProgramId
          accounts :=
            [{ pubkey := b58_encode (List.replicate 31 0 ++ [1]),
               is_signer := false, is_writable := true },
             { pubkey := b58_encode (get_associated_token_address
                 (List.replicate 31 0 ++ [2]) (List.replicate 31 0 ++ [1])),
               is_signer := false, is_writable := true },
             { pubkey := b58_encode (List.replicate 31 0 ++ [3]),
               is_signer := true, is_writable := false }]
          instruction_data := base64_encode (7 :: natLE 8 0) }) :=
  claim_C10 "11111111111111111111111111111111" "11111111111111111111111111111112"
    "11111111111111111111111111111113" "11111111111111111111111111111112"
    "11111111111111111111111111111114" "11111111111111111111111111111112"
    "11111111111111111111111111111113" "11111111111111111111111111111114"
    (List.replicate 32 0) (List.replicate 31 0 ++ [1]) (List.replicate 31 0 ++ [2])
    (List.replicate 31 0 ++ [1]) (List.replicate 31 0 ++ [3]) (List.replicate 31 0 ++ [1])
    (List.replicate 31 0 ++ [2]) (List.replicate 31 0 ++ [3])
    (by decide) (by decide) (by decide) (by decide) (by decide) (by decide)
    (by decide) (by decide) (by decide) (by decide) (by decide) (by decide)
    (by decide) (by decide) (by decide) (by decide)

end SolService
